import Mathlib

set_option linter.unusedVariables false
set_option linter.dupNamespace false

/-!
Shallow embedding of the manifest-rendering core of stoader/service-mesh-hub
(pkg/render/renderer.go) together with proofs about its behavior.

The Go source in scope defines the data model (ValuesInputs, LayerInput),
input validation (ValidateInputs), value coalescing (ComputeValueOverrides),
template expansion (ExecInputValuesTemplates), manifest acquisition
(GetManifestsFromApplicationSpec, getManifestsFromSteps,
getManifestsFromInstallationStep, getManifestsFromHelm, getManifestsFromGithub,
getManifestsFromArchive), label filtering (FilterByLabel) and the orchestrating
pipeline (manifestRenderer.ComputeResourcesForApplication).

External collaborators (the helm rendering engine, archive fetching, the
manifest/resource conversions, the dependency validator and the apply-layers
stage) are modelled as an explicit environment of functions. Library types
from api/v1 and the nested-map utilities are not part of the given sources
and are modelled from the specification, as marked on each definition.
-/

/-- Association-list lookup, modelling reads from a Go string-keyed map. -/
def lookupKey {α : Type} : List (String × α) → String → Option α
  | [], _ => none
  | (k, v) :: rest, key => if k = key then some v else lookupKey rest key

/-- Association-list update, modelling writes to a Go string-keyed map: the
first binding of the key is replaced in place, otherwise the binding is
appended. -/
def setKey {α : Type} : List (String × α) → String → α → List (String × α)
  | [], k, v => [(k, v)]
  | (k1, v1) :: rest, k, v =>
    if k1 = k then (k, v) :: rest else (k1, v1) :: setKey rest k v

/-- Modelled from the spec: a declared parameter (api/v1 Parameter, not under
src/): a name and a required flag. -/
structure Parameter where
  Name : String
  Required : Bool
deriving DecidableEq, Repr

/-- Modelled from the spec: an opaque resource dependency of a layer option,
validated only by the injected collaborator. -/
structure ResourceDep where
  tag : String
deriving DecidableEq, Repr

/-- Modelled from the spec: a layer option (api/v1 LayerOption, not under
src/): an identifier, an optional helm-values override fragment, option-scoped
parameters and opaque resource dependencies. -/
structure LayerOption where
  Id : String
  HelmValues : String
  Parameters : List Parameter
  ResourceDependencies : List ResourceDep
deriving DecidableEq, Repr

/-- Modelled from the spec: a customization layer of a Flavor (api/v1, not
under src/): identifier, optional flag and its set of options. -/
structure CustomizationLayer where
  Id : String
  Optional : Bool
  Options : List LayerOption
deriving DecidableEq, Repr

/-- Modelled from the spec: a Flavor (api/v1, not under src/): its own
parameters and an ordered list of customization layers. -/
structure Flavor where
  Parameters : List Parameter
  CustomizationLayers : List CustomizationLayer
deriving DecidableEq, Repr

/-- A (layer id, option id) selection supplied by the caller
(render.LayerInput). -/
structure LayerInput where
  LayerId : String
  OptionId : String
deriving DecidableEq, Repr

/-- Modelled from the spec: a reference to a mesh resource (solo-kit
core.ResourceRef, not under src/). -/
structure ResourceRef where
  Name : String
  Nspace : String
deriving DecidableEq, Repr

/-- The mutable working state of one render request (render.ValuesInputs). -/
structure ValuesInputs where
  Name : String
  InstallNamespace : String
  Flavor : Flavor
  Layers : List LayerInput
  MeshRef : ResourceRef
  UserDefinedValues : String
  SpecDefinedValues : String
  Params : List (String × String)
deriving DecidableEq, Repr

/-- Modelled from the spec: a packaged-archive location (api/v1 TgzLocation). -/
structure TgzLocation where
  Uri : String
deriving DecidableEq, Repr

/-- Modelled from the spec: a github chart location (api/v1
GithubRepositoryLocation). -/
structure GithubRepositoryLocation where
  Org : String
  Repo : String
  Ref : String
  Directory : String
deriving DecidableEq, Repr

/-- Modelled from the spec: the closed three-variant source union of one
installation step (api/v1 InstallationSteps_Step oneof); a step never nests
further steps. The Go oneof may also be unset, modelled by an Option at the
use site. -/
inductive StepVariant where
  | githubChart (loc : GithubRepositoryLocation)
  | helmArchive (loc : TgzLocation)
  | manifestsArchive (loc : TgzLocation)
deriving DecidableEq, Repr

/-- Modelled from the spec: one named installation step. -/
structure Step where
  Name : String
  Step : Option StepVariant
deriving DecidableEq, Repr

/-- Modelled from the spec: the ordered list of installation steps. -/
structure InstallationSteps where
  Steps : List Step
deriving DecidableEq, Repr

/-- Modelled from the spec: the closed four-variant installation-source union
of a versioned application spec (api/v1 oneof); unset is modelled by an Option
at the use site. -/
inductive InstallationSpecVariant where
  | githubChart (loc : GithubRepositoryLocation)
  | helmArchive (loc : TgzLocation)
  | manifestsArchive (loc : TgzLocation)
  | installationSteps (steps : InstallationSteps)
deriving DecidableEq, Repr

/-- Modelled from the spec: a versioned application spec (api/v1, not under
src/): declared parameters, required labels for post-render filtering, and the
installation-source variant. -/
structure VersionedApplicationSpec where
  Parameters : List Parameter
  RequiredLabels : List (String × String)
  InstallationSpec : Option InstallationSpecVariant
deriving DecidableEq, Repr

/-- Modelled from the spec: a structured Kubernetes-style resource with
mutable labels (kuberesource unstructured resource); a resource may have no
label map at all (Go nil map), modelled by none. The payload stands for the
rest of the resource content. -/
structure Resource where
  labels : Option (List (String × String))
  payload : String
deriving DecidableEq, Repr

/-- Modelled from the spec: one rendered text manifest document
(helmchart.Manifests element). -/
structure Manifest where
  content : String
deriving DecidableEq, Repr

/-- The error values of the render package; wrapping constructors mirror the
errors.Wrapf-based constructors of the source, plain constructors mirror the
errors.Errorf values. -/
inductive RenderError where
  | missingInstallSpec
  | failedToRenderManifests (inner : RenderError)
  | failedToConvertManifests (inner : RenderError)
  | failedRenderValueTemplates (inner : RenderError)
  | missingInputForRequiredLayer (inner : RenderError)
  | missingInputForRequireParam (name : String)
  | unrecognizedParam (name : String)
  | incorrectNumberOfInputLayers
  | atLeastOneStepRequired
  | stepMustBeNamed
  | duplicateStepName (name : String)
  | layerNotFound (layerId : String)
  | optionNotFound (layerId optionId : String)
  | yamlParseError (text : String)
  | templateExec (msg : String)
  | externalFailure (msg : String)
deriving DecidableEq, Repr

/-- Outcome of running a piece of Go code that can return normally, return an
error value, or panic (a non-returned-error outcome such as the one produced
by template.Must). -/
inductive GoResult (α : Type) where
  | panicked (msg : String)
  | errored (e : RenderError)
  | ok (v : α)
deriving DecidableEq, Repr

/-! ## Nested-map utilities, modelled from the spec (pkg/render helpers not
under src/) -/

/-- Modelled from the spec: a YAML-like value: a scalar, a sequence, or a
nested mapping with string keys. -/
inductive YVal where
  | str (s : String)
  | seq (xs : List YVal)
  | node (m : List (String × YVal))

/-- A nested mapping with unlimited depth. -/
abbrev NestedMap := List (String × YVal)

mutual

/-- Modelled from the spec: recursive merge of one value onto another: two
mappings merge recursively, any other overlay value replaces the base value
whole (scalars and sequences are never merged element-wise). -/
def CoalesceVal : YVal → YVal → YVal
  | .node m1, .node m2 => .node (CoalesceValuesMap m1 m2)
  | _, v2 => v2

/-- Modelled from the spec: CoalesceValuesMap (pkg/render, not under src/):
deep merge of the overlay mapping onto the base mapping with right-hand
precedence, key by key in overlay order. -/
def CoalesceValuesMap : NestedMap → NestedMap → NestedMap
  | base, [] => base
  | base, (k, v) :: rest =>
    let newV :=
      match lookupKey base k with
      | some b => CoalesceVal b v
      | none => v
    CoalesceValuesMap (setKey base k newV) rest

end

/-- Split a line at its first colon: key before, value after; a line without a
colon is malformed. -/
def splitLineAtColon : List Char → Option (List Char × List Char)
  | [] => none
  | c :: rest =>
    if c = ':' then some ([], rest)
    else (splitLineAtColon rest).map (fun pr => (c :: pr.1, pr.2))

/-- Drop leading and trailing spaces of a character list. -/
def trimChars (cs : List Char) : List Char :=
  ((cs.dropWhile (· = ' ')).reverse.dropWhile (· = ' ')).reverse

/-- Split a character list on a separator character; always returns at least
one group. -/
def splitOnChar (sep : Char) : List Char → List (List Char)
  | [] => [[]]
  | c :: rest =>
    let r := splitOnChar sep rest
    if c = sep then [] :: r
    else
      match r with
      | [] => [[c]]
      | g :: gs => (c :: g) :: gs

/-- Modelled from the spec: ConvertYamlStringToNestedMap (pkg/render, not
under src/): parse YAML text into a nested mapping or fail. The model covers
the flat subset used throughout: one top-level "key: value" binding per
non-blank line; a non-blank line without a colon is a parse error; empty text
yields the empty mapping. -/
def ConvertYamlStringToNestedMap (text : String) : Except RenderError NestedMap :=
  let lines := (splitOnChar '\n' text.toList).filter (fun l => trimChars l ≠ [])
  lines.foldlM
    (fun acc line =>
      match splitLineAtColon line with
      | none => .error (.yamlParseError text)
      | some (k, v) =>
        .ok (setKey acc (String.mk (trimChars k)) (.str (String.mk (trimChars v)))))
    ([] : NestedMap)

/-- Expand one dotted-path key into a nested singleton value. -/
def expandDotted : List String → String → YVal
  | [], v => .str v
  | k :: rest, v => .node [(k, expandDotted rest v)]

/-- The nested singleton mapping of one dotted parameter binding. -/
def paramEntry (key value : String) : NestedMap :=
  match (splitOnChar '.' key.toList).map String.mk with
  | [] => []
  | k :: rest => [(k, expandDotted rest value)]

/-- Modelled from the spec: ConvertParamsToNestedMap (pkg/render, not under
src/): the flat parameter map becomes a nested mapping, dotted-path keys
expanding into nesting, successive bindings deep-merged in map order. -/
def ConvertParamsToNestedMap (params : List (String × String)) :
    Except RenderError NestedMap :=
  .ok (params.foldl (fun acc kv => CoalesceValuesMap acc (paramEntry kv.1 kv.2)) [])

mutual

/-- Flow-style rendering of one YAML-like value. -/
def yamlOfVal : YVal → String
  | .str s => s
  | .seq xs => "[" ++ String.intercalate ", " (yamlOfValList xs) ++ "]"
  | .node m => "\x7b" ++ String.intercalate ", " (yamlOfEntries m) ++ "\x7d"

/-- Rendering of a list of values. -/
def yamlOfValList : List YVal → List String
  | [] => []
  | v :: rest => yamlOfVal v :: yamlOfValList rest

/-- Rendering of the entries of a mapping. -/
def yamlOfEntries : List (String × YVal) → List String
  | [] => []
  | (k, v) :: rest => (k ++ ": " ++ yamlOfVal v) :: yamlOfEntries rest

end

/-- Modelled from the spec: ConvertNestedMapToYaml (pkg/render, not under
src/): serialize a nested mapping back to YAML text, one top-level binding per
line, nested mappings in flow style. The model is total. -/
def ConvertNestedMapToYaml (m : NestedMap) : String :=
  String.intercalate "\n" (yamlOfEntries m)

/-! ## Template engine, modelled from the spec (the external text/template
library): single-pass expansion of field actions over the input bundle. A
parse failure is what text/template Parse reports; template.Must turns it into
a panic at the call site in the source. -/

/-- One parsed template piece: a literal character or a field action. -/
inductive Piece where
  | lit (c : Char)
  | action (field : String)
deriving DecidableEq, Repr

/-- Parse the inside of one action: optional spaces, a leading dot and a field
name; anything else is a parse error, as in text/template. -/
def parseField (cs : List Char) : Except String String :=
  match trimChars cs with
  | '.' :: rest => .ok (String.mk rest)
  | _ => .error "template: bad action"

/-- Single-pass template scanner: outside an action (first argument none) a
double opening brace enters action mode, inside an action (first argument
holds the reversed content so far) a double closing brace ends it; text
ending inside an action is a parse error, as in text/template. -/
def parseChars : Option (List Char) → List Char → Except String (List Piece)
  | none, [] => .ok []
  | some _, [] => .error "template: unclosed action"
  | none, '{' :: '{' :: rest => parseChars (some []) rest
  | none, c :: rest =>
    match parseChars none rest with
    | .error e => .error e
    | .ok tail => .ok (.lit c :: tail)
  | some acc, '}' :: '}' :: rest =>
    match parseField acc.reverse with
    | .error e => .error e
    | .ok f =>
      match parseChars none rest with
      | .error e => .error e
      | .ok tail => .ok (.action f :: tail)
  | some acc, c :: rest => parseChars (some (c :: acc)) rest

/-- Parse template text into pieces; a malformed action is a parse error, as
reported by text/template Parse. -/
def parsePieces (cs : List Char) : Except String (List Piece) :=
  parseChars none cs

/-- Evaluate one field of the input bundle; the string-valued fields of the
bundle are addressable, any other name fails at execution time, as in
text/template. -/
def fieldValue (inputs : ValuesInputs) : String → Except String String
  | "Name" => .ok inputs.Name
  | "InstallNamespace" => .ok inputs.InstallNamespace
  | "SpecDefinedValues" => .ok inputs.SpecDefinedValues
  | "UserDefinedValues" => .ok inputs.UserDefinedValues
  | f => .error ("template: cannot evaluate field " ++ f)

/-- Execute parsed pieces against the input bundle. -/
def execPieces (inputs : ValuesInputs) : List Piece → Except String String
  | [] => .ok ""
  | .lit c :: rest =>
    match execPieces inputs rest with
    | .error e => .error e
    | .ok t => .ok (c.toString ++ t)
  | .action f :: rest =>
    match fieldValue inputs f with
    | .error e => .error e
    | .ok v =>
      match execPieces inputs rest with
      | .error e => .error e
      | .ok t => .ok (v ++ t)

/-- template.Must(template.New(name).Parse(text)) followed by Execute: a parse
failure panics (template.Must), an execution failure is an ordinary returned
error. -/
def execTemplate (text : String) (data : ValuesInputs) : GoResult String :=
  match parsePieces text.toList with
  | .error e => .panicked e
  | .ok pieces =>
    match execPieces data pieces with
    | .error e => .errored (.templateExec e)
    | .ok s => .ok s

/-- The parameter loop of ExecInputValuesTemplates. The Go range iterates the
shared Params map and writes each expanded value back into that same map, so
the second component is the state of the caller-shared map when the loop stops,
also when it stops on a failure part-way through. -/
def paramLoop (base : ValuesInputs) :
    List (String × String) → List (String × String) →
      GoResult (List (String × String)) × List (String × String)
  | [], m => (.ok m, m)
  | (k, v) :: rest, m =>
    match execTemplate v { base with Params := m } with
    | .panicked msg => (.panicked msg, m)
    | .errored e => (.errored e, m)
    | .ok s => paramLoop base rest (setKey m k s)

/-- ExecInputValuesTemplates (renderer.go): renders SpecDefinedValues, then
UserDefinedValues, then every parameter value, each against the current bundle.
The first component is the Go return (the updated bundle, an error with the
zero bundle discarded, or a panic from template.Must); the second component is
the caller-visible state of the shared Params map after the call. -/
def ExecInputValuesTemplates (inputs : ValuesInputs) :
    GoResult ValuesInputs × List (String × String) :=
  match execTemplate inputs.SpecDefinedValues inputs with
  | .panicked msg => (.panicked msg, inputs.Params)
  | .errored e => (.errored e, inputs.Params)
  | .ok sv =>
    let inputs1 := { inputs with SpecDefinedValues := sv }
    match execTemplate inputs1.UserDefinedValues inputs1 with
    | .panicked msg => (.panicked msg, inputs.Params)
    | .errored e => (.errored e, inputs.Params)
    | .ok uv =>
      let inputs2 := { inputs1 with UserDefinedValues := uv }
      match paramLoop inputs2 inputs2.Params inputs2.Params with
      | (.panicked msg, mShared) => (.panicked msg, mShared)
      | (.errored e, mShared) => (.errored e, mShared)
      | (.ok m, mShared) => (.ok { inputs2 with Params := m }, mShared)

/-! ## Layer and parameter validation (ValidateInputs, renderer.go) -/

/-- Modelled from the spec: GetRequiredLayerCount (pkg/render, not under
src/): the number of non-optional layers the Flavor declares. -/
def GetRequiredLayerCount (flavor : Flavor) : Nat :=
  (flavor.CustomizationLayers.filter (fun l => !l.Optional)).length

/-- Modelled from the spec: GetLayerOption (pkg/render, not under src/):
resolve an option by id within one layer; no match is a lookup error. -/
def GetLayerOption (optionId : String) (layer : CustomizationLayer) :
    Except RenderError LayerOption :=
  match layer.Options.find? (fun o => o.Id = optionId) with
  | some o => .ok o
  | none => .error (.optionNotFound layer.Id optionId)

/-- Modelled from the spec: GetLayerOptionFromFlavor (pkg/render, not under
src/): resolve a layer by id within the Flavor, then the option within the
layer. -/
def GetLayerOptionFromFlavor (layerId optionId : String) (flavor : Flavor) :
    Except RenderError LayerOption :=
  match flavor.CustomizationLayers.find? (fun l => l.Id = layerId) with
  | some layer => GetLayerOption optionId layer
  | none => .error (.layerNotFound layerId)

/-- The inner loop of ValidateInputs over the supplied selections: the
variable optionId is overwritten on every matching selection, so the last
matching selection determines the resolved option id; with no match it stays
empty. -/
def resolveOptionId (layers : List LayerInput) (layerId : String) : String :=
  layers.foldl (fun acc li => if li.LayerId = layerId then li.OptionId else acc) ""

/-- The layer loop of ValidateInputs: walk the declared layers in order,
resolve each selected option, fail on a required layer without a resolvable
option, skip an optional one, and collect the resolved options in declaration
order. -/
def selectOptions (layers : List LayerInput) :
    List CustomizationLayer → Except RenderError (List LayerOption)
  | [] => .ok []
  | fl :: rest =>
    match GetLayerOption (resolveOptionId layers fl.Id) fl with
    | .error e =>
      if !fl.Optional then .error (.missingInputForRequiredLayer e)
      else selectOptions layers rest
    | .ok opt =>
      match selectOptions layers rest with
      | .error e => .error e
      | .ok os => .ok (opt :: os)

/-- The dependency-validation loop of ValidateInputs over the selected
options. -/
def runDepValidation (validate : List ResourceDep → Option RenderError) :
    List LayerOption → Option RenderError
  | [] => none
  | o :: rest =>
    match validate o.ResourceDependencies with
    | some e => some e
    | none => runDepValidation validate rest

/-- Overlay a list of declared parameters onto the namespace, keyed by name,
each entry replacing any existing entry of the same name. -/
def addParams (acc : List (String × Parameter)) (ps : List Parameter) :
    List (String × Parameter) :=
  ps.foldl (fun a p => setKey a p.Name p) acc

/-- The allParameters namespace of ValidateInputs: spec parameters, then
Flavor parameters, then each selected option's parameters, later overlays
replacing earlier entries of the same name. -/
def buildParamNamespace (spec : VersionedApplicationSpec) (flavor : Flavor)
    (selectedOptions : List LayerOption) : List (String × Parameter) :=
  addParams (addParams (addParams [] spec.Parameters) flavor.Parameters)
    (selectedOptions.flatMap (fun o => o.Parameters))

/-- The required-parameter check: the first namespace entry whose parameter is
required while the supplied value is absent or empty. -/
def firstMissingRequired (ns : List (String × Parameter))
    (params : List (String × String)) : Option String :=
  (ns.find? (fun kp => kp.2.Required ∧ (lookupKey params kp.2.Name).getD "" = "")).map
    (fun kp => kp.2.Name)

/-- The unknown-parameter check: the first supplied parameter name that is not
a key of the namespace. -/
def firstUnknownParam (ns : List (String × Parameter))
    (params : List (String × String)) : Option String :=
  (params.find? (fun kv => (lookupKey ns kv.1).isNone)).map (fun kv => kv.1)

/-- ValidateInputs (renderer.go): layer-count check, option resolution with
dependency validation, then the parameter checks, returning the first failing
check's error and nil on success. -/
def ValidateInputs (inputs : ValuesInputs) (spec : VersionedApplicationSpec)
    (validate : List ResourceDep → Option RenderError) : Option RenderError :=
  if inputs.Layers.length < GetRequiredLayerCount inputs.Flavor then
    some .incorrectNumberOfInputLayers
  else
    match selectOptions inputs.Layers inputs.Flavor.CustomizationLayers with
    | .error e => some e
    | .ok selectedOptions =>
      match runDepValidation validate selectedOptions with
      | some e => some e
      | none =>
        let allParameters := buildParamNamespace spec inputs.Flavor selectedOptions
        match firstMissingRequired allParameters inputs.Params with
        | some n => some (.missingInputForRequireParam n)
        | none =>
          match firstUnknownParam allParameters inputs.Params with
          | some n => some (.unrecognizedParam n)
          | none => none

/-! ## Value coalescing (ComputeValueOverrides, renderer.go) -/

/-- The layer loop of ComputeValueOverrides: for each supplied selection in
caller order, resolve its option; a nonempty HelmValues fragment is parsed and
merged onto the accumulator, an empty one is skipped. -/
def layerValuesLoop (flavor : Flavor) (acc : NestedMap) :
    List LayerInput → Except RenderError NestedMap
  | [] => .ok acc
  | li :: rest =>
    match GetLayerOptionFromFlavor li.LayerId li.OptionId flavor with
    | .error e => .error e
    | .ok option =>
      if option.HelmValues ≠ "" then
        match ConvertYamlStringToNestedMap option.HelmValues with
        | .error e => .error e
        | .ok layerValues =>
          layerValuesLoop flavor (CoalesceValuesMap acc layerValues) rest
      else
        layerValuesLoop flavor acc rest

/-- ComputeValueOverrides (renderer.go): parse and merge spec values, each
supplied layer's option values in caller order, the dotted-path-expanded
parameter map, and the user values, then serialize the accumulator. -/
def ComputeValueOverrides (inputs : ValuesInputs) : Except RenderError String :=
  match ConvertYamlStringToNestedMap inputs.SpecDefinedValues with
  | .error e => .error e
  | .ok specValues =>
    match layerValuesLoop inputs.Flavor (CoalesceValuesMap [] specValues) inputs.Layers with
    | .error e => .error e
    | .ok acc1 =>
      match ConvertParamsToNestedMap inputs.Params with
      | .error e => .error e
      | .ok paramValues =>
        let acc2 := CoalesceValuesMap acc1 paramValues
        match ConvertYamlStringToNestedMap inputs.UserDefinedValues with
        | .error e => .error e
        | .ok userValues =>
          .ok (ConvertNestedMapToYaml (CoalesceValuesMap acc2 userValues))

/-! ## Manifest acquisition and the pipeline -/

/-- The external collaborators of the render core: the injected dependency
validator, the chart/archive rendering engine, the archive fetcher, the
manifest/resource conversions, and the apply-layers stage of the interface
pipeline (pkg/render code not under src/, referenced by the renderer). -/
structure Externals where
  depValidate : List ResourceDep → Option RenderError
  renderHelm : String → String → String → String → Except RenderError (List Manifest)
  renderGithub : GithubRepositoryLocation → String → String → String →
    Except RenderError (List Manifest)
  fetchArchive : String → Except RenderError (List Manifest)
  resourceList : List Manifest → Except RenderError (List Resource)
  manifestsFromResources : List Resource → Except RenderError (List Manifest)
  applyLayers : ValuesInputs → List Manifest → Except RenderError (List Resource)

/-- getManifestsFromHelm (renderer.go): coalesce values, delegate to the
rendering engine with the archive uri, values, release name and namespace;
engine failure is wrapped. -/
def getManifestsFromHelm (env : Externals) (helmInstallSpec : TgzLocation)
    (inputs : ValuesInputs) : Except RenderError (List Manifest) :=
  match ComputeValueOverrides inputs with
  | .error e => .error e
  | .ok values =>
    match env.renderHelm helmInstallSpec.Uri values inputs.Name inputs.InstallNamespace with
    | .error e => .error (.failedToRenderManifests e)
    | .ok manifests => .ok manifests

/-- getManifestsFromGithub (renderer.go): coalesce values, delegate to the
rendering engine with the github chart reference; engine failure is wrapped. -/
def getManifestsFromGithub (env : Externals) (githubInstallSpec : GithubRepositoryLocation)
    (inputs : ValuesInputs) : Except RenderError (List Manifest) :=
  match ComputeValueOverrides inputs with
  | .error e => .error e
  | .ok values =>
    match env.renderGithub githubInstallSpec values inputs.Name inputs.InstallNamespace with
    | .error e => .error (.failedToRenderManifests e)
    | .ok manifests => .ok manifests

/-- getManifestsFromArchive (renderer.go): fetch manifests from the archive
location; fetch failure is wrapped. -/
def getManifestsFromArchive (env : Externals) (manifestsArchive : TgzLocation)
    (inputs : ValuesInputs) : Except RenderError (List Manifest) :=
  match env.fetchArchive manifestsArchive.Uri with
  | .error e => .error (.failedToRenderManifests e)
  | .ok manifests => .ok manifests

/-- The step-identity label key (renderer.go InstallationStepLabel). -/
def InstallationStepLabel : String := "service-mesh-hub.solo.io/installation_step"

/-- Set the step-identity label on one resource, creating the label map when
the resource has none. -/
def labelResource (stepName : String) (r : Resource) : Resource :=
  { r with labels := some (setKey (r.labels.getD []) InstallationStepLabel stepName) }

/-- getManifestsFromInstallationStep (renderer.go): dispatch on the step's
source variant; an unset variant is a MissingInstallSpecError. -/
def getManifestsFromInstallationStep (env : Externals) (inputs : ValuesInputs)
    (step : Step) : Except RenderError (List Manifest) :=
  match step.Step with
  | some (.githubChart loc) => getManifestsFromGithub env loc inputs
  | some (.helmArchive loc) => getManifestsFromHelm env loc inputs
  | some (.manifestsArchive loc) => getManifestsFromArchive env loc inputs
  | none => .error .missingInstallSpec

/-- The per-step body of getManifestsFromSteps after the name checks: acquire
the step's manifests, convert them to resources, stamp the step-identity label
on every resource, and convert back. -/
def stepManifests (env : Externals) (inputs : ValuesInputs) (step : Step) :
    Except RenderError (List Manifest) :=
  match getManifestsFromInstallationStep env inputs step with
  | .error e => .error e
  | .ok manifests =>
    match env.resourceList manifests with
    | .error e => .error e
    | .ok resources =>
      env.manifestsFromResources (resources.map (labelResource step.Name))

/-- The loop of getManifestsFromSteps: per step, the empty-name check, the
scan of the names seen so far for a duplicate, then acquisition and labeling,
appending to the combined result. -/
def stepsLoop (env : Externals) (inputs : ValuesInputs) :
    List Step → List String → List Manifest → Except RenderError (List Manifest)
  | [], _, combined => .ok combined
  | step :: rest, seen, combined =>
    if step.Name = "" then .error .stepMustBeNamed
    else if step.Name ∈ seen then .error (.duplicateStepName step.Name)
    else
      match stepManifests env inputs step with
      | .error e => .error e
      | .ok ms => stepsLoop env inputs rest (seen ++ [step.Name]) (combined ++ ms)

/-- getManifestsFromSteps (renderer.go): an empty step list fails immediately,
then the steps are processed in order. -/
def getManifestsFromSteps (env : Externals) (inputs : ValuesInputs)
    (steps : InstallationSteps) : Except RenderError (List Manifest) :=
  if steps.Steps.isEmpty then .error .atLeastOneStepRequired
  else stepsLoop env inputs steps.Steps [] []

/-- GetManifestsFromApplicationSpec (renderer.go): dispatch on the
installation-source variant of the spec; an unset variant is a
MissingInstallSpecError. -/
def GetManifestsFromApplicationSpec (env : Externals) (inputs : ValuesInputs)
    (spec : VersionedApplicationSpec) : Except RenderError (List Manifest) :=
  match spec.InstallationSpec with
  | some (.githubChart loc) => getManifestsFromGithub env loc inputs
  | some (.helmArchive loc) => getManifestsFromHelm env loc inputs
  | some (.manifestsArchive loc) => getManifestsFromArchive env loc inputs
  | some (.installationSteps steps) => getManifestsFromSteps env inputs steps
  | none => .error .missingInstallSpec

/-- WithLabels, modelled from the spec (external kuberesource library): keep
the resources whose label set contains every required key/value pair. -/
def withLabels (resources : List Resource) (labels : List (String × String)) :
    List Resource :=
  resources.filter (fun r =>
    labels.all (fun kv => lookupKey (r.labels.getD []) kv.1 = some kv.2))

/-- FilterByLabel (renderer.go): when the spec declares required labels,
restrict the resource set to those carrying all of them; otherwise return the
input unchanged. -/
def FilterByLabel (spec : VersionedApplicationSpec) (resources : List Resource) :
    List Resource :=
  if spec.RequiredLabels.length > 0 then withLabels resources spec.RequiredLabels
  else resources

/-- manifestRenderer.ComputeResourcesForApplication (renderer.go): validate,
expand input-value templates (wrapping a returned failure as a
FailedRenderValueTemplates error and propagating a template.Must panic),
acquire manifests, apply layers, and filter by label. The dependency validator
of the interface version is threaded from the environment. -/
def ComputeResourcesForApplication (env : Externals) (inputs : ValuesInputs)
    (spec : VersionedApplicationSpec) : GoResult (List Resource) :=
  match ValidateInputs inputs spec env.depValidate with
  | some e => .errored e
  | none =>
    match (ExecInputValuesTemplates inputs).1 with
    | .panicked msg => .panicked msg
    | .errored e => .errored (.failedRenderValueTemplates e)
    | .ok inputs1 =>
      match GetManifestsFromApplicationSpec env inputs1 spec with
      | .error e => .errored e
      | .ok manifests =>
        match env.applyLayers inputs1 manifests with
        | .error e => .errored e
        | .ok rawResources => .ok (FilterByLabel spec rawResources)

/-! ## Concrete fixtures used by witnesses and counterexamples -/

/-- The no-op dependency validator (validation.NoopValidateResources). -/
def noopValidate : List ResourceDep → Option RenderError := fun _ => none

/-- A well-behaved concrete environment: every collaborator succeeds and the
conversions are payload-preserving. -/
def envOk : Externals where
  depValidate := noopValidate
  renderHelm := fun uri values name nspace =>
    .ok [⟨"helm:" ++ uri ++ ":" ++ values ++ ":" ++ name ++ ":" ++ nspace⟩]
  renderGithub := fun ref values name nspace =>
    .ok [⟨"github:" ++ ref.Repo ++ ":" ++ values ++ ":" ++ name ++ ":" ++ nspace⟩]
  fetchArchive := fun uri => .ok [⟨"archive:" ++ uri⟩]
  resourceList := fun ms => .ok (ms.map (fun m => ⟨none, m.content⟩))
  manifestsFromResources := fun rs => .ok (rs.map (fun r => ⟨r.payload⟩))
  applyLayers := fun _ ms => .ok (ms.map (fun m => ⟨none, m.content⟩))

/-- A Flavor with no layers and no parameters. -/
def emptyFlavor : Flavor := ⟨[], []⟩

/-- A minimal valid input bundle. -/
def baseInputs : ValuesInputs where
  Name := "demo"
  InstallNamespace := "apps"
  Flavor := emptyFlavor
  Layers := []
  MeshRef := ⟨"mesh", "meshns"⟩
  UserDefinedValues := ""
  SpecDefinedValues := ""
  Params := []

/-- A spec installing from a raw-manifest archive. -/
def archiveSpec : VersionedApplicationSpec := ⟨[], [], some (.manifestsArchive ⟨"tar"⟩)⟩

/-- C2 failing input: an unterminated template action in the spec-defined
values. -/
def c2PanicInputs : ValuesInputs := { baseInputs with SpecDefinedValues := "\x7b\x7b" }

/-- C2 contrast input: a template that parses but fails at execution time. -/
def c2ErrorInputs : ValuesInputs :=
  { baseInputs with SpecDefinedValues := "\x7b\x7b.Bogus\x7d\x7d" }

/-- C3 failing input: the first parameter expands, the second fails at
execution time. -/
def c3Inputs : ValuesInputs :=
  { baseInputs with
    Params := [("a", "\x7b\x7b.Name\x7d\x7d"), ("b", "\x7b\x7b.Bogus\x7d\x7d")] }

/-- The C1 example Flavor: one required layer l with one option o carrying the
values fragment x: 2. -/
def exFlavor : Flavor := ⟨[], [⟨"l", false, [⟨"o", "x: 2", [], []⟩]⟩]⟩

/-- The C1 example bundle: spec x: 1, layer option x: 2, parameter x=3, user
x: 4. -/
def exBundle4 : ValuesInputs where
  Name := "demo"
  InstallNamespace := "apps"
  Flavor := exFlavor
  Layers := [⟨"l", "o"⟩]
  MeshRef := ⟨"mesh", "meshns"⟩
  UserDefinedValues := "x: 4"
  SpecDefinedValues := "x: 1"
  Params := [("x", "3")]

/-- The C1 example bundle without the user value. -/
def exBundle3 : ValuesInputs := { exBundle4 with UserDefinedValues := "" }

/-- The C1 example bundle without the user value and the parameters. -/
def exBundle2 : ValuesInputs := { exBundle3 with Params := [] }

/-- The C4 layer: required layer l with available options o1 and o2. -/
def c4Layer : CustomizationLayer := ⟨"l", false, [⟨"o1", "", [], []⟩, ⟨"o2", "", [], []⟩]⟩

/-- The C4 Flavor holding only that layer. -/
def c4Flavor : Flavor := ⟨[], [c4Layer]⟩

/-- The C4 inputs: two selections match layer l, the first names the available
option o1, the last names a nonexistent option. -/
def c4Inputs : ValuesInputs :=
  { baseInputs with Flavor := c4Flavor, Layers := [⟨"l", "o1"⟩, ⟨"l", "bogus"⟩] }

/-- A minimal spec with no parameters, labels or installation source. -/
def c4Spec : VersionedApplicationSpec := ⟨[], [], none⟩

/-- A C10 input whose spec values and parameter value are templates. -/
def c10Inputs : ValuesInputs :=
  { baseInputs with
    SpecDefinedValues := "\x7b\x7b.Name\x7d\x7d",
    Params := [("a", "\x7b\x7b.InstallNamespace\x7d\x7d")] }

/-- The bundle c10Inputs expands to. -/
def c10Expanded : ValuesInputs :=
  { c10Inputs with SpecDefinedValues := "demo", Params := [("a", "apps")] }

/-- The last parameter of a given name in a declaration list: the entry a
name-keyed overlay of the list ends up holding. -/
def lastNamed (ps : List Parameter) (n : String) : Option Parameter :=
  ps.foldl (fun acc p => if p.Name = n then some p else acc) none

/-- The C7 spec: one required parameter p and nothing else. -/
def c7Spec : VersionedApplicationSpec := ⟨[⟨"p", true⟩], [], none⟩

/-- The first C5/C6 step, installing from archive u1. -/
def stepA : Step := ⟨"a", some (.manifestsArchive ⟨"u1"⟩)⟩

/-- A second step with a distinct name, installing from archive u2. -/
def stepB : Step := ⟨"b", some (.manifestsArchive ⟨"u2"⟩)⟩

/-- A step whose name differs from stepA's only by case. -/
def stepCapA : Step := ⟨"A", some (.manifestsArchive ⟨"u2"⟩)⟩

/-- A later step reusing stepA's name, installing from archive u3. -/
def stepA2 : Step := ⟨"a", some (.manifestsArchive ⟨"u3"⟩)⟩

/-- The C5 environment: archive fetches fail, every other collaborator
behaves. -/
def env5 : Externals :=
  { envOk with fetchArchive := fun _ => .error (.externalFailure "fetch failed") }

/-- The resource env9's manifest-to-resource conversion always returns. -/
def r1 : Resource := ⟨none, "from-conversion"⟩

/-- The resource env9's apply-layers stage always returns. -/
def r2 : Resource := ⟨none, "from-apply-layers"⟩

/-- The C9 environment: conversion and apply-layers return distinct fixed
resources, making the stage between acquisition and filtering observable. -/
def env9 : Externals :=
  { envOk with
    resourceList := fun _ => .ok [r1],
    applyLayers := fun _ _ => .ok [r2] }

/-- C2: the claim says every malformed template expression is surfaced as a
returned, wrapped templating error and that no failure in this core is a
fatal process exit. The code wraps template.New(...).Parse(...) in
template.Must, so a template that is malformed at parse time (here an
unterminated action in the spec-defined values) panics instead of returning an
error; only execution-time failures come back as the wrapped
FailedRenderValueTemplates error, as the second conjunct shows. -/
theorem computeResources_template_must_panics :
    ComputeResourcesForApplication envOk c2PanicInputs archiveSpec =
      .panicked "template: unclosed action"
    ∧ (ExecInputValuesTemplates c2PanicInputs).1 =
      .panicked "template: unclosed action"
    ∧ ComputeResourcesForApplication envOk c2ErrorInputs archiveSpec =
      .errored (.failedRenderValueTemplates
        (.templateExec "template: cannot evaluate field Bogus")) :=
  ⟨rfl, rfl, rfl⟩

/-- C3: the claim says a failed expansion leaves the caller's bundle, every
parameter entry included, observably unchanged. The parameter loop writes each
expanded value back into the Params map, which the caller shares (a Go map is
a reference), so when a later parameter fails the earlier entries of the
caller's map already hold expanded values: here the call fails, yet the shared
map holds the expanded value "demo" for parameter a while b is unexpanded. -/
theorem execTemplates_partial_param_mutation :
    (ExecInputValuesTemplates c3Inputs).1 =
      .errored (.templateExec "template: cannot evaluate field Bogus")
    ∧ (ExecInputValuesTemplates c3Inputs).2 =
      [("a", "demo"), ("b", "\x7b\x7b.Bogus\x7d\x7d")]
    ∧ (ExecInputValuesTemplates c3Inputs).2 ≠ c3Inputs.Params :=
  ⟨rfl, rfl, by decide⟩

/-- C8: a spec whose installation-source variant is unset fails with
MissingInstallSpecError, and an installation step whose source variant is
unset fails the same way; a step can only carry one of the three non-step
variants, so no nesting of steps is possible. -/
theorem missingInstallSpec_on_unset_variant (env : Externals)
    (inputs : ValuesInputs) (spec : VersionedApplicationSpec) (step : Step)
    (hspec : spec.InstallationSpec = none) (hstep : step.Step = none) :
    GetManifestsFromApplicationSpec env inputs spec = .error .missingInstallSpec
    ∧ getManifestsFromInstallationStep env inputs step = .error .missingInstallSpec := by
  constructor
  · unfold GetManifestsFromApplicationSpec
    rw [hspec]
  · unfold getManifestsFromInstallationStep
    rw [hstep]

/-- C8 witness: the hypotheses hold at a concrete unset spec and step. -/
theorem missingInstallSpec_on_unset_variant_witness :
    GetManifestsFromApplicationSpec envOk baseInputs ⟨[], [], none⟩ =
      .error .missingInstallSpec
    ∧ getManifestsFromInstallationStep envOk baseInputs ⟨"s", none⟩ =
      .error .missingInstallSpec :=
  missingInstallSpec_on_unset_variant envOk baseInputs ⟨[], [], none⟩ ⟨"s", none⟩ rfl rfl

/-! ## C1: value coalescing lemmas -/

theorem lookupKey_setKey_self {α : Type} (m : List (String × α)) (k : String) (v : α) :
    lookupKey (setKey m k v) k = some v := by
  induction m with
  | nil => simp [setKey, lookupKey]
  | cons kv rest ih =>
    obtain ⟨k1, v1⟩ := kv
    by_cases h : k1 = k
    · simp [setKey, h, lookupKey]
    · simp [setKey, h, lookupKey, ih]

theorem lookupKey_setKey_ne {α : Type} (m : List (String × α)) (k k2 : String) (v : α)
    (h : k2 ≠ k) : lookupKey (setKey m k v) k2 = lookupKey m k2 := by
  induction m with
  | nil => simp [setKey, lookupKey, Ne.symm h]
  | cons kv rest ih =>
    obtain ⟨k1, v1⟩ := kv
    by_cases h1 : k1 = k
    · subst h1
      simp [setKey, lookupKey, Ne.symm h]
    · simp [setKey, h1, lookupKey, ih]

theorem coalesce_lookup_not_mem (ov : NestedMap) : ∀ (b : NestedMap) (k : String),
    k ∉ ov.map Prod.fst → lookupKey (CoalesceValuesMap b ov) k = lookupKey b k := by
  induction ov with
  | nil => intro b k _; rfl
  | cons kv rest ih =>
    obtain ⟨k1, v1⟩ := kv
    intro b k h
    simp only [List.map_cons, List.mem_cons] at h
    push_neg at h
    simp only [CoalesceValuesMap]
    rw [ih _ k h.2, lookupKey_setKey_ne _ _ _ _ h.1]

theorem coalesce_overrides (ov : NestedMap) : ∀ (b : NestedMap) (k s : String),
    lookupKey ov k = some (.str s) → (ov.map Prod.fst).Nodup →
    lookupKey (CoalesceValuesMap b ov) k = some (.str s) := by
  induction ov with
  | nil => intro b k s h _; simp [lookupKey] at h
  | cons kv rest ih =>
    obtain ⟨k1, v1⟩ := kv
    intro b k s h hnd
    simp only [List.map_cons, List.nodup_cons] at hnd
    by_cases hk : k1 = k
    · subst hk
      have hv1 : v1 = .str s := by simpa [lookupKey] using h
      subst hv1
      simp only [CoalesceValuesMap]
      rw [coalesce_lookup_not_mem rest _ _ hnd.1]
      cases hb : lookupKey b k1 with
      | none => simp [hb, lookupKey_setKey_self]
      | some bv =>
        have hcv : CoalesceVal bv (.str s) = .str s := by cases bv <;> rfl
        simp [hb, hcv, lookupKey_setKey_self]
    · have h2 : lookupKey rest k = some (.str s) := by
        simpa [lookupKey, hk] using h
      simp only [CoalesceValuesMap]
      exact ih _ k s h2 hnd.2

/-- C1: when the spec values, the layer fragments, the parameter map and the
user values all parse, ComputeValueOverrides returns the serialization of
their deep merge in the order spec, then the supplied layers in caller order,
then parameters, then user values; a later source overrides any path a prior
source set (for a key the overlay binds to a scalar, the merged mapping holds
the overlay's value); and on the concrete precedence example the final
document is x: 4, dropping the user value leaves x: 3, dropping the
parameters as well leaves x: 2. -/
theorem computeValueOverrides_ordered_merge (inputs : ValuesInputs)
    (m0 mL mP mU : NestedMap)
    (h0 : ConvertYamlStringToNestedMap inputs.SpecDefinedValues = .ok m0)
    (hL : layerValuesLoop inputs.Flavor (CoalesceValuesMap [] m0) inputs.Layers = .ok mL)
    (hP : ConvertParamsToNestedMap inputs.Params = .ok mP)
    (hU : ConvertYamlStringToNestedMap inputs.UserDefinedValues = .ok mU) :
    ComputeValueOverrides inputs =
      .ok (ConvertNestedMapToYaml (CoalesceValuesMap (CoalesceValuesMap mL mP) mU))
    ∧ (∀ (b ov : NestedMap) (k s : String),
        lookupKey ov k = some (.str s) → (ov.map Prod.fst).Nodup →
        lookupKey (CoalesceValuesMap b ov) k = some (.str s))
    ∧ ComputeValueOverrides exBundle4 = .ok "x: 4"
    ∧ ComputeValueOverrides exBundle3 = .ok "x: 3"
    ∧ ComputeValueOverrides exBundle2 = .ok "x: 2" := by
  refine ⟨?_, fun b ov k s h hnd => coalesce_overrides ov b k s h hnd, rfl, rfl, rfl⟩
  simp only [ComputeValueOverrides, h0, hL, hP, hU]

/-- C1 witness: the parse hypotheses hold at the concrete precedence example
and the merged document is the serialized merge, which evaluates to x: 4. -/
theorem computeValueOverrides_ordered_merge_witness :
    ComputeValueOverrides exBundle4 =
      .ok (ConvertNestedMapToYaml
        (CoalesceValuesMap
          (CoalesceValuesMap [("x", YVal.str "2")] [("x", YVal.str "3")])
          [("x", YVal.str "4")]))
    ∧ ComputeValueOverrides exBundle4 = .ok "x: 4" :=
  ⟨(computeValueOverrides_ordered_merge exBundle4
      [("x", YVal.str "1")] [("x", YVal.str "2")] [("x", YVal.str "3")]
      [("x", YVal.str "4")] rfl rfl rfl rfl).1,
    (computeValueOverrides_ordered_merge exBundle4
      [("x", YVal.str "1")] [("x", YVal.str "2")] [("x", YVal.str "3")]
      [("x", YVal.str "4")] rfl rfl rfl rfl).2.2.1⟩

/-! ## C4: layer selection resolution -/

theorem getLast?_cons_getD {α : Type} (a : α) (l : List α) :
    (a :: l).getLast? = some (l.getLast?.getD a) := by
  induction l generalizing a with
  | nil => rfl
  | cons b t ih =>
    rw [List.getLast?_cons_cons, ih b]
    cases ht : t.getLast? with
    | none => simp [ih, ht]
    | some x => simp [ih, ht]

theorem foldl_last_match (layerId : String) :
    ∀ (layers : List LayerInput) (acc : String),
      layers.foldl (fun a li => if li.LayerId = layerId then li.OptionId else a) acc =
        (((layers.filter (fun li => li.LayerId = layerId)).getLast?).map
          (fun li => li.OptionId)).getD acc := by
  intro layers
  induction layers with
  | nil => intro acc; rfl
  | cons li rest ih =>
    intro acc
    by_cases h : li.LayerId = layerId
    · rw [List.foldl_cons, if_pos h, ih li.OptionId,
        List.filter_cons_of_pos (by simpa using h), getLast?_cons_getD]
      cases hl : (rest.filter (fun li2 => li2.LayerId = layerId)).getLast? with
      | none => simp [hl]
      | some x => simp [hl]
    · rw [List.foldl_cons, if_neg h, ih acc,
        List.filter_cons_of_neg (by simpa using h)]

/-- C4 amended: for every Flavor layer, ValidateInputs resolves the option id
from the LAST matching selection in the supplied list, not the first — the
loop overwrites the resolved id on every match; a layer with no matching
selection gets the empty id, hence no selection. -/
theorem resolveOptionId_last_match_wins (layers : List LayerInput) (layerId : String) :
    resolveOptionId layers layerId =
      (((layers.filter (fun li => li.LayerId = layerId)).getLast?).map
        (fun li => li.OptionId)).getD ""
    ∧ (layers.filter (fun li => li.LayerId = layerId) = [] →
        resolveOptionId layers layerId = "") := by
  constructor
  · exact foldl_last_match layerId layers ""
  · intro h
    rw [resolveOptionId, foldl_last_match layerId layers "", h]
    rfl

/-- C4 counterexample: were the first matching selection used, layer l would
resolve to the available option o1 and validation would pass; the code takes
the last match bogus, fails to resolve it and rejects the required layer, so
the claim that the first matching selection wins is false on the code. -/
theorem validateInputs_first_match_refuted :
    resolveOptionId c4Inputs.Layers "l" = "bogus"
    ∧ GetLayerOption "o1" c4Layer = .ok ⟨"o1", "", [], []⟩
    ∧ ValidateInputs c4Inputs c4Spec noopValidate =
        some (.missingInputForRequiredLayer (.optionNotFound "l" "bogus")) :=
  ⟨rfl, rfl, rfl⟩

/-! ## C10: the frame of template expansion -/

theorem setKey_keys_of_mem {α : Type} (m : List (String × α)) (k : String) (v : α)
    (h : k ∈ m.map Prod.fst) : (setKey m k v).map Prod.fst = m.map Prod.fst := by
  induction m with
  | nil => simp at h
  | cons kv rest ih =>
    obtain ⟨k1, v1⟩ := kv
    by_cases h1 : k1 = k
    · subst h1
      simp [setKey]
    · have h2 : k ∈ rest.map Prod.fst := by
        simp only [List.map_cons, List.mem_cons] at h
        rcases h with h | h
        · exact absurd h.symm h1
        · exact h
      simp [setKey, h1, ih h2]

theorem paramLoop_keys (base : ValuesInputs) :
    ∀ (ps m : List (String × String)) (res : GoResult (List (String × String)))
      (mfin : List (String × String)),
      (∀ kv ∈ ps, kv.1 ∈ m.map Prod.fst) →
      paramLoop base ps m = (res, mfin) →
      mfin.map Prod.fst = m.map Prod.fst := by
  intro ps
  induction ps with
  | nil =>
    intro m res mfin _ h
    simp only [paramLoop, Prod.mk.injEq] at h
    rw [← h.2]
  | cons kv rest ih =>
    obtain ⟨k, v⟩ := kv
    intro m res mfin hmem h
    simp only [paramLoop] at h
    cases hexec : execTemplate v { base with Params := m } with
    | panicked msg =>
      rw [hexec] at h
      simp only [Prod.mk.injEq] at h
      rw [← h.2]
    | errored e =>
      rw [hexec] at h
      simp only [Prod.mk.injEq] at h
      rw [← h.2]
    | ok s =>
      rw [hexec] at h
      have hk : k ∈ m.map Prod.fst := hmem (k, v) (by simp)
      have hrest : ∀ kv2 ∈ rest, kv2.1 ∈ (setKey m k s).map Prod.fst := by
        intro kv2 hkv2
        rw [setKey_keys_of_mem m k s hk]
        exact hmem kv2 (by simp [hkv2])
      rw [ih (setKey m k s) res mfin hrest h, setKey_keys_of_mem m k s hk]

theorem paramLoop_ok_shared (base : ValuesInputs) :
    ∀ (ps m mret mfin : List (String × String)),
      paramLoop base ps m = (.ok mret, mfin) → mret = mfin := by
  intro ps
  induction ps with
  | nil =>
    intro m mret mfin h
    simp only [paramLoop, Prod.mk.injEq, GoResult.ok.injEq] at h
    exact h.1.symm.trans h.2
  | cons kv rest ih =>
    obtain ⟨k, v⟩ := kv
    intro m mret mfin h
    simp only [paramLoop] at h
    cases hexec : execTemplate v { base with Params := m } with
    | panicked msg => rw [hexec] at h; simp at h
    | errored e => rw [hexec] at h; simp at h
    | ok s =>
      rw [hexec] at h
      exact ih (setKey m k s) mret mfin h

/-- C10: when ExecInputValuesTemplates succeeds, the returned bundle carries
the same Name, InstallNamespace, Flavor, Layers and MeshRef as the input, and
its parameter map binds exactly the same names in the same order — expansion
only ever rewrites SpecDefinedValues, UserDefinedValues and the parameter
values. -/
theorem execTemplates_frame (inputs inputs1 : ValuesInputs)
    (mShared : List (String × String))
    (h : ExecInputValuesTemplates inputs = (.ok inputs1, mShared)) :
    inputs1.Name = inputs.Name
    ∧ inputs1.InstallNamespace = inputs.InstallNamespace
    ∧ inputs1.Flavor = inputs.Flavor
    ∧ inputs1.Layers = inputs.Layers
    ∧ inputs1.MeshRef = inputs.MeshRef
    ∧ inputs1.Params.map Prod.fst = inputs.Params.map Prod.fst := by
  simp only [ExecInputValuesTemplates] at h
  split at h
  · simp at h
  · simp at h
  · split at h
    · simp at h
    · simp at h
    · split at h
      · simp at h
      · simp at h
      · rename_i mparams plm hpl
        simp only [Prod.mk.injEq, GoResult.ok.injEq] at h
        have hshared : mparams = plm :=
          paramLoop_ok_shared _ _ _ mparams plm hpl
        have hkeys : mparams.map Prod.fst = inputs.Params.map Prod.fst := by
          have := paramLoop_keys _ inputs.Params inputs.Params (.ok mparams) plm
            (fun kv hkv => List.mem_map_of_mem Prod.fst hkv) hpl
          rw [hshared]
          simpa using this
        rw [← h.1]
        simp [hkeys]

/-- C10 witness: at the concrete template-bearing bundle, expansion succeeds
and every frame field of the result equals the input's. -/
theorem execTemplates_frame_witness :
    c10Expanded.Name = c10Inputs.Name
    ∧ c10Expanded.InstallNamespace = c10Inputs.InstallNamespace
    ∧ c10Expanded.Flavor = c10Inputs.Flavor
    ∧ c10Expanded.Layers = c10Inputs.Layers
    ∧ c10Expanded.MeshRef = c10Inputs.MeshRef
    ∧ c10Expanded.Params.map Prod.fst = c10Inputs.Params.map Prod.fst :=
  execTemplates_frame c10Inputs c10Expanded [("a", "apps")] rfl

/-! ## C7: the parameter namespace and its checks -/

theorem foldl_lastNamed (n : String) :
    ∀ (ps : List Parameter) (a0 : Option Parameter),
      ps.foldl (fun acc p => if p.Name = n then some p else acc) a0 =
        match lastNamed ps n with
        | some q => some q
        | none => a0 := by
  intro ps
  induction ps with
  | nil => intro a0; rfl
  | cons p rest ih =>
    intro a0
    rw [List.foldl_cons, ih]
    conv_rhs => rw [lastNamed, List.foldl_cons, ih]
    by_cases h : p.Name = n
    · simp only [if_pos h]
      cases lastNamed rest n <;> rfl
    · simp only [if_neg h]
      cases lastNamed rest n <;> rfl

theorem addParams_lookup :
    ∀ (ps : List Parameter) (acc : List (String × Parameter)) (n : String),
      lookupKey (addParams acc ps) n =
        match lastNamed ps n with
        | some q => some q
        | none => lookupKey acc n := by
  intro ps
  induction ps with
  | nil => intro acc n; rfl
  | cons p rest ih =>
    intro acc n
    have hstep : addParams acc (p :: rest) = addParams (setKey acc p.Name p) rest := rfl
    rw [hstep, ih]
    have hlast : lastNamed (p :: rest) n =
        match lastNamed rest n with
        | some q => some q
        | none => if p.Name = n then some p else none := by
      rw [lastNamed, List.foldl_cons]
      simpa using foldl_lastNamed n rest (if p.Name = n then some p else none)
    rw [hlast]
    by_cases h : p.Name = n
    · subst h
      cases lastNamed rest p.Name <;>
        simp [lookupKey_setKey_self]
    · cases lastNamed rest n <;>
        simp [lookupKey_setKey_ne _ _ _ _ (fun hh => h hh.symm), h]

theorem lastNamed_append (xs ys : List Parameter) (n : String) :
    lastNamed (xs ++ ys) n =
      match lastNamed ys n with
      | some q => some q
      | none => lastNamed xs n := by
  rw [lastNamed, List.foldl_append]
  simpa using foldl_lastNamed n ys (lastNamed xs n)

theorem buildParamNamespace_lookup (spec : VersionedApplicationSpec)
    (flavor : Flavor) (os : List LayerOption) (n : String) :
    lookupKey (buildParamNamespace spec flavor os) n =
      lastNamed (spec.Parameters ++ flavor.Parameters ++
        os.flatMap (fun o => o.Parameters)) n := by
  unfold buildParamNamespace
  rw [addParams_lookup, addParams_lookup, addParams_lookup,
    lastNamed_append, lastNamed_append]
  cases lastNamed (os.flatMap (fun o => o.Parameters)) n <;>
    cases lastNamed flavor.Parameters n <;>
      cases lastNamed spec.Parameters n <;>
        simp [lookupKey]

/-- C7: once the layer stage has passed with selected options os, the
parameter namespace is the name-keyed overlay of spec, then Flavor, then
selected-option parameters — looking up a name yields the last declaration of
that name in scope order, a later overlay entirely replacing an earlier one;
whenever some namespace parameter is required but supplied absent or empty,
validation fails with MissingInputForRequireParam for such a parameter even if
unknown names were also supplied (the required check runs first); when the
required check passes and some supplied name is not in the namespace,
validation fails with UnrecognizedParamError for such a name; when both checks
pass, validation succeeds. -/
theorem validateInputs_param_checks (inputs : ValuesInputs)
    (spec : VersionedApplicationSpec)
    (validate : List ResourceDep → Option RenderError) (os : List LayerOption)
    (hcount : ¬ inputs.Layers.length < GetRequiredLayerCount inputs.Flavor)
    (hsel : selectOptions inputs.Layers inputs.Flavor.CustomizationLayers = .ok os)
    (hdep : runDepValidation validate os = none) :
    (∀ n, lookupKey (buildParamNamespace spec inputs.Flavor os) n =
        lastNamed (spec.Parameters ++ inputs.Flavor.Parameters ++
          os.flatMap (fun o => o.Parameters)) n)
    ∧ ((∃ kp ∈ buildParamNamespace spec inputs.Flavor os,
          kp.2.Required = true ∧ (lookupKey inputs.Params kp.2.Name).getD "" = "") →
        ∃ kp, kp ∈ buildParamNamespace spec inputs.Flavor os
          ∧ kp.2.Required = true
          ∧ (lookupKey inputs.Params kp.2.Name).getD "" = ""
          ∧ ValidateInputs inputs spec validate =
              some (.missingInputForRequireParam kp.2.Name))
    ∧ (firstMissingRequired (buildParamNamespace spec inputs.Flavor os)
          inputs.Params = none →
        (∃ kv ∈ inputs.Params,
          lookupKey (buildParamNamespace spec inputs.Flavor os) kv.1 = none) →
        ∃ kv, kv ∈ inputs.Params
          ∧ lookupKey (buildParamNamespace spec inputs.Flavor os) kv.1 = none
          ∧ ValidateInputs inputs spec validate = some (.unrecognizedParam kv.1))
    ∧ (firstMissingRequired (buildParamNamespace spec inputs.Flavor os)
          inputs.Params = none →
        firstUnknownParam (buildParamNamespace spec inputs.Flavor os)
          inputs.Params = none →
        ValidateInputs inputs spec validate = none) := by
  have hval : ValidateInputs inputs spec validate =
      (match firstMissingRequired (buildParamNamespace spec inputs.Flavor os)
          inputs.Params with
       | some n => some (.missingInputForRequireParam n)
       | none =>
         match firstUnknownParam (buildParamNamespace spec inputs.Flavor os)
             inputs.Params with
         | some n => some (.unrecognizedParam n)
         | none => none) := by
    unfold ValidateInputs
    rw [if_neg hcount]
    simp only [hsel, hdep]
  refine ⟨fun n => buildParamNamespace_lookup spec inputs.Flavor os n, ?_, ?_, ?_⟩
  · intro hex
    have hsome : ((buildParamNamespace spec inputs.Flavor os).find?
        (fun kp => kp.2.Required ∧ (lookupKey inputs.Params kp.2.Name).getD "" = "")).isSome := by
      rw [List.find?_isSome]
      obtain ⟨kp, hmem, hreq, hmiss⟩ := hex
      exact ⟨kp, hmem, by simp [hreq, hmiss]⟩
    obtain ⟨kp, hfind⟩ := Option.isSome_iff_exists.mp hsome
    have hpred := List.find?_some hfind
    have hmem := List.mem_of_find?_eq_some hfind
    simp only [Bool.and_eq_true, decide_eq_true_eq] at hpred
    refine ⟨kp, hmem, ?_, ?_, ?_⟩
    · simpa using hpred.1
    · simpa using hpred.2
    · rw [hval]
      have : firstMissingRequired (buildParamNamespace spec inputs.Flavor os)
          inputs.Params = some kp.2.Name := by
        rw [firstMissingRequired, hfind]
        rfl
      rw [this]
  · intro hmr hex
    have hsome : (inputs.Params.find?
        (fun kv => (lookupKey (buildParamNamespace spec inputs.Flavor os) kv.1).isNone)).isSome := by
      rw [List.find?_isSome]
      obtain ⟨kv, hmem, hnone⟩ := hex
      exact ⟨kv, hmem, by simp [hnone]⟩
    obtain ⟨kv, hfind⟩ := Option.isSome_iff_exists.mp hsome
    have hpred := List.find?_some hfind
    have hmem := List.mem_of_find?_eq_some hfind
    simp only [Option.isNone_iff_eq_none] at hpred
    refine ⟨kv, hmem, hpred, ?_⟩
    rw [hval, hmr]
    have : firstUnknownParam (buildParamNamespace spec inputs.Flavor os)
        inputs.Params = some kv.1 := by
      rw [firstUnknownParam, hfind]
      rfl
    rw [this]
  · intro h1 h2
    rw [hval, h1, h2]

/-- C7 witness: at the concrete spec declaring required parameter p with no
value supplied, the layer-stage hypotheses hold and validation fails with
MissingInputForRequireParam p. -/
theorem validateInputs_param_checks_witness :
    ∃ kp, kp ∈ buildParamNamespace c7Spec baseInputs.Flavor []
      ∧ kp.2.Required = true
      ∧ (lookupKey baseInputs.Params kp.2.Name).getD "" = ""
      ∧ ValidateInputs baseInputs c7Spec noopValidate =
          some (.missingInputForRequireParam kp.2.Name) :=
  (validateInputs_param_checks baseInputs c7Spec noopValidate []
    (by decide) rfl rfl).2.1
    ⟨("p", ⟨"p", true⟩), by decide, by decide, by decide⟩

/-! ## C5 and C6: installation steps -/

theorem stepsLoop_ok (env : Externals) (inputs : ValuesInputs) :
    ∀ (steps : List Step) (mss : List (List Manifest))
      (seen : List String) (combined : List Manifest),
      (∀ s ∈ steps, s.Name ≠ "") →
      (∀ s ∈ steps, s.Name ∉ seen) →
      (steps.map (fun s => s.Name)).Nodup →
      List.Forall₂ (fun s ms => stepManifests env inputs s = .ok ms) steps mss →
      stepsLoop env inputs steps seen combined = .ok (combined ++ mss.flatten) := by
  intro steps
  induction steps with
  | nil =>
    intro mss seen combined _ _ _ hf
    cases hf
    simp [stepsLoop]
  | cons s rest ih =>
    intro mss seen combined hne hseen hnd hf
    cases hf with
    | cons hs hrest =>
      rename_i ms mss2
      have hsname : ¬ s.Name = "" := hne s (by simp)
      have hsseen : s.Name ∉ seen := hseen s (by simp)
      simp only [List.map_cons, List.nodup_cons] at hnd
      rw [stepsLoop, if_neg hsname, if_neg hsseen]
      simp only [hs]
      rw [ih mss2 (seen ++ [s.Name]) (combined ++ ms)
        (fun t ht => hne t (by simp [ht]))
        (fun t ht => by
          simp only [List.mem_append, List.mem_singleton]
          push_neg
          refine ⟨hseen t (by simp [ht]), ?_⟩
          intro hcontra
          exact hnd.1 (hcontra ▸ List.mem_map_of_mem (fun s2 => s2.Name) ht))
        hnd.2 hrest]
      simp [List.flatten]

/-- C6: for an ordered-steps spec whose steps are uniquely and non-emptily
named and all succeed, the combined result is the concatenation, in step
order, of each step's reassembled manifests; each step's contribution is the
conversion of its acquired resources with the step-identity label stamped on
every resource in original order (the label map is created when absent); and
every stamped resource carries the step's name under the step-identity label
key. -/
theorem getManifestsFromSteps_label_order (env : Externals) (inputs : ValuesInputs)
    (steps : List Step) (mss : List (List Manifest))
    (h0 : steps ≠ [])
    (h1 : ∀ s ∈ steps, s.Name ≠ "")
    (h2 : (steps.map (fun s => s.Name)).Nodup)
    (h3 : List.Forall₂ (fun s ms => stepManifests env inputs s = .ok ms) steps mss) :
    getManifestsFromSteps env inputs ⟨steps⟩ = .ok mss.flatten
    ∧ (∀ (s : Step) (ms : List Manifest) (rs : List Resource),
        getManifestsFromInstallationStep env inputs s = .ok ms →
        env.resourceList ms = .ok rs →
        stepManifests env inputs s =
          env.manifestsFromResources (rs.map (labelResource s.Name)))
    ∧ (∀ (n : String) (r : Resource),
        lookupKey ((labelResource n r).labels.getD []) InstallationStepLabel = some n) := by
  refine ⟨?_, ?_, ?_⟩
  · rw [getManifestsFromSteps]
    have : steps.isEmpty = false := by
      cases steps with
      | nil => exact absurd rfl h0
      | cons s rest => rfl
    rw [this]
    simpa using stepsLoop_ok env inputs steps mss [] []
      h1 (fun s _ => List.not_mem_nil s.Name) h2 h3
  · intro s ms rs hacq hconv
    simp only [stepManifests, hacq, hconv]
  · intro n r
    rw [labelResource]
    simp [lookupKey_setKey_self]

/-- C6 witness: two uniquely named archive steps under the well-behaved
environment produce the concatenation of their labeled manifests in step
order. -/
theorem getManifestsFromSteps_label_order_witness :
    getManifestsFromSteps envOk baseInputs ⟨[stepA, stepB]⟩ =
      .ok ([[⟨"archive:u1"⟩], [⟨"archive:u2"⟩]] : List (List Manifest)).flatten :=
  (getManifestsFromSteps_label_order envOk baseInputs [stepA, stepB]
    [[⟨"archive:u1"⟩], [⟨"archive:u2"⟩]] (by decide) (by decide) (by decide)
    (List.Forall₂.cons rfl (List.Forall₂.cons rfl List.Forall₂.nil))).1

theorem isEmpty_append_cons (l1 : List Step) (a : Step) (l2 : List Step) :
    (l1 ++ a :: l2).isEmpty = false := by
  cases l1 <;> rfl

theorem stepsLoop_processed (env : Externals) (inputs : ValuesInputs) :
    ∀ (pre : List Step) (mss : List (List Manifest)) (tail : List Step)
      (seen : List String) (combined : List Manifest),
      (∀ s ∈ pre, s.Name ≠ "") →
      (∀ s ∈ pre, s.Name ∉ seen) →
      (pre.map (fun s => s.Name)).Nodup →
      List.Forall₂ (fun s ms => stepManifests env inputs s = .ok ms) pre mss →
      stepsLoop env inputs (pre ++ tail) seen combined =
        stepsLoop env inputs tail (seen ++ pre.map (fun s => s.Name))
          (combined ++ mss.flatten) := by
  intro pre
  induction pre with
  | nil =>
    intro mss tail seen combined _ _ _ hf
    cases hf
    simp
  | cons s rest ih =>
    intro mss tail seen combined hne hseen hnd hf
    cases hf with
    | cons hs hrest =>
      rename_i ms mss2
      have hsname : ¬ s.Name = "" := hne s (by simp)
      have hsseen : s.Name ∉ seen := hseen s (by simp)
      simp only [List.map_cons, List.nodup_cons] at hnd
      rw [List.cons_append, stepsLoop, if_neg hsname, if_neg hsseen]
      simp only [hs]
      rw [ih mss2 tail (seen ++ [s.Name]) (combined ++ ms)
        (fun t ht => hne t (by simp [ht]))
        (fun t ht => by
          simp only [List.mem_append, List.mem_singleton]
          push_neg
          refine ⟨hseen t (by simp [ht]), ?_⟩
          intro hcontra
          exact hnd.1 (hcontra ▸ List.mem_map_of_mem (fun s2 => s2.Name) ht))
        hnd.2 hrest]
      simp [List.flatten]

/-- C5 amended: an empty step list fails immediately; a step with an empty
name is fatal when reached, after the uniquely named steps before it have all
been acquired; a duplicate step name, at any position, is fatal when the
second occurrence of the name is reached, which is after the manifests of all
the steps before it have been acquired (the hypothesis exhibits their
completed acquisitions), not before all acquisition; and names are compared
case-sensitively, so steps named a and A are not duplicates. -/
theorem getManifestsFromSteps_checks (env : Externals) (inputs : ValuesInputs)
    (pre : List Step) (d : Step) (rest : List Step) (mss : List (List Manifest))
    (hnamed : ∀ s ∈ pre, s.Name ≠ "")
    (hnodup : (pre.map (fun s => s.Name)).Nodup)
    (hdup : d.Name ∈ pre.map (fun s => s.Name))
    (hacq : List.Forall₂ (fun s ms => stepManifests env inputs s = .ok ms) pre mss) :
    getManifestsFromSteps env inputs ⟨pre ++ d :: rest⟩ =
      .error (.duplicateStepName d.Name)
    ∧ (∀ (env2 : Externals) (inputs2 : ValuesInputs),
        getManifestsFromSteps env2 inputs2 ⟨[]⟩ = .error .atLeastOneStepRequired)
    ∧ (∀ (env2 : Externals) (inputs2 : ValuesInputs) (pre2 : List Step)
        (u : Step) (rest2 : List Step) (mss2 : List (List Manifest)),
        (∀ s ∈ pre2, s.Name ≠ "") →
        (pre2.map (fun s => s.Name)).Nodup →
        u.Name = "" →
        List.Forall₂ (fun s ms => stepManifests env2 inputs2 s = .ok ms) pre2 mss2 →
        getManifestsFromSteps env2 inputs2 ⟨pre2 ++ u :: rest2⟩ =
          .error .stepMustBeNamed)
    ∧ getManifestsFromSteps envOk baseInputs ⟨[stepA, stepCapA]⟩ =
        .ok [⟨"archive:u1"⟩, ⟨"archive:u2"⟩] := by
  refine ⟨?_, fun env2 inputs2 => rfl, ?_, rfl⟩
  · simp only [getManifestsFromSteps]
    rw [isEmpty_append_cons]
    simp only [Bool.false_eq_true, if_false]
    rw [stepsLoop_processed env inputs pre mss (d :: rest) [] []
      hnamed (fun s _ => List.not_mem_nil s.Name) hnodup hacq]
    have hdname : ¬ d.Name = "" := by
      intro hc
      obtain ⟨s, hsmem, hseq⟩ := List.mem_map.mp hdup
      exact hnamed s hsmem (by rw [hseq, hc])
    rw [stepsLoop, if_neg hdname,
      if_pos (by simpa using hdup :
        d.Name ∈ ([] : List String) ++ pre.map (fun s => s.Name))]
  · intro env2 inputs2 pre2 u rest2 mss2 hn2 hnd2 hu hf2
    simp only [getManifestsFromSteps]
    rw [isEmpty_append_cons]
    simp only [Bool.false_eq_true, if_false]
    rw [stepsLoop_processed env2 inputs2 pre2 mss2 (u :: rest2) [] []
      hn2 (fun s _ => List.not_mem_nil s.Name) hnd2 hf2]
    rw [stepsLoop, if_pos hu]

/-- C5 witness: with steps a, b, a — the duplicate not adjacent to its first
occurrence — both preceding steps acquire successfully and the duplicate is
reported when the third step is reached. -/
theorem getManifestsFromSteps_checks_witness :
    getManifestsFromSteps envOk baseInputs ⟨[stepA, stepB] ++ [stepA2]⟩ =
      .error (.duplicateStepName stepA2.Name) :=
  (getManifestsFromSteps_checks envOk baseInputs [stepA, stepB] stepA2 []
    [[⟨"archive:u1"⟩], [⟨"archive:u2"⟩]]
    (by decide) (by decide) (by decide)
    (List.Forall₂.cons rfl (List.Forall₂.cons rfl List.Forall₂.nil))).1

/-- C5 counterexample: with steps a, a whose acquisition fails, the call
returns the acquisition failure of the first step, not the duplicate-name
error — so the duplicate is not detected before any step's manifests are
acquired: the first step's acquisition runs (and here fails) first. -/
theorem getManifestsFromSteps_acquires_before_duplicate :
    getManifestsFromSteps env5 baseInputs ⟨[stepA, stepA]⟩ =
      .error (.failedToRenderManifests (.externalFailure "fetch failed"))
    ∧ getManifestsFromSteps env5 baseInputs ⟨[stepA, stepA]⟩ ≠
      .error (.duplicateStepName "a") :=
  ⟨rfl, fun h => RenderError.noConfusion (Except.error.inj h)⟩

/-! ## C9: the pipeline stages -/

/-- C9 counterexample: the pipeline output is the label-filtered result of the
apply-layers stage, not of the acquired manifests: with apply-layers returning
r2 while the acquired manifests convert to r1, the pipeline returns r2, which
differs from the label-filtered resource set r1 obtained from the acquired
manifests — a further transformation sits between acquisition and
filtering. -/
theorem computeResources_applyLayers_between :
    ComputeResourcesForApplication env9 baseInputs archiveSpec = .ok [r2]
    ∧ GetManifestsFromApplicationSpec env9 baseInputs archiveSpec =
        .ok [⟨"archive:tar"⟩]
    ∧ env9.resourceList [⟨"archive:tar"⟩] = .ok [r1]
    ∧ FilterByLabel archiveSpec [r1] = [r1]
    ∧ ([r2] : List Resource) ≠ [r1] :=
  ⟨rfl, rfl, rfl, rfl, by decide⟩

/-- C9 amended: the pipeline is the five-stage sequence validate → expand
templates → acquire manifests → apply layers → filter by label; it
short-circuits on the first failing stage, returning the validation error
unwrapped, a returned template failure wrapped as FailedRenderValueTemplates,
and the acquisition or apply-layers error unwrapped; on success it returns the
label-filtered result of the apply-layers stage applied to the acquired
manifests. -/
theorem computeResources_pipeline (env : Externals) (inputs inputs1 : ValuesInputs)
    (spec : VersionedApplicationSpec) (ms : List Manifest) (raw : List Resource)
    (hv : ValidateInputs inputs spec env.depValidate = none)
    (ht : (ExecInputValuesTemplates inputs).1 = .ok inputs1)
    (hm : GetManifestsFromApplicationSpec env inputs1 spec = .ok ms)
    (ha : env.applyLayers inputs1 ms = .ok raw) :
    ComputeResourcesForApplication env inputs spec = .ok (FilterByLabel spec raw)
    ∧ (∀ (env2 : Externals) (inputs2 : ValuesInputs)
        (spec2 : VersionedApplicationSpec) (e : RenderError),
        ValidateInputs inputs2 spec2 env2.depValidate = some e →
        ComputeResourcesForApplication env2 inputs2 spec2 = .errored e)
    ∧ (∀ (env2 : Externals) (inputs2 : ValuesInputs)
        (spec2 : VersionedApplicationSpec) (e : RenderError),
        ValidateInputs inputs2 spec2 env2.depValidate = none →
        (ExecInputValuesTemplates inputs2).1 = .errored e →
        ComputeResourcesForApplication env2 inputs2 spec2 =
          .errored (.failedRenderValueTemplates e))
    ∧ (∀ (env2 : Externals) (inputs2 inputs3 : ValuesInputs)
        (spec2 : VersionedApplicationSpec) (e : RenderError),
        ValidateInputs inputs2 spec2 env2.depValidate = none →
        (ExecInputValuesTemplates inputs2).1 = .ok inputs3 →
        GetManifestsFromApplicationSpec env2 inputs3 spec2 = .error e →
        ComputeResourcesForApplication env2 inputs2 spec2 = .errored e)
    ∧ (∀ (env2 : Externals) (inputs2 inputs3 : ValuesInputs)
        (spec2 : VersionedApplicationSpec) (ms2 : List Manifest) (e : RenderError),
        ValidateInputs inputs2 spec2 env2.depValidate = none →
        (ExecInputValuesTemplates inputs2).1 = .ok inputs3 →
        GetManifestsFromApplicationSpec env2 inputs3 spec2 = .ok ms2 →
        env2.applyLayers inputs3 ms2 = .error e →
        ComputeResourcesForApplication env2 inputs2 spec2 = .errored e) := by
  refine ⟨?_, ?_, ?_, ?_, ?_⟩
  · simp only [ComputeResourcesForApplication, hv, ht, hm, ha]
  · intro env2 inputs2 spec2 e h
    simp only [ComputeResourcesForApplication, h]
  · intro env2 inputs2 spec2 e h ht2
    simp only [ComputeResourcesForApplication, h, ht2]
  · intro env2 inputs2 inputs3 spec2 e h ht2 hm2
    simp only [ComputeResourcesForApplication, h, ht2, hm2]
  · intro env2 inputs2 inputs3 spec2 ms2 e h ht2 hm2 ha2
    simp only [ComputeResourcesForApplication, h, ht2, hm2, ha2]

/-- C9 witness: the stage hypotheses hold at the archive-backed spec under the
well-behaved environment, and the pipeline returns the filtered apply-layers
result. -/
theorem computeResources_pipeline_witness :
    ComputeResourcesForApplication envOk baseInputs archiveSpec =
      .ok (FilterByLabel archiveSpec [⟨none, "archive:tar"⟩]) :=
  (computeResources_pipeline envOk baseInputs baseInputs archiveSpec
    [⟨"archive:tar"⟩] [⟨none, "archive:tar"⟩] rfl rfl rfl rfl).1
